import Mathlib

/-!
Verification of the Hugging Face model ranking routine of OllamaTrauma
(scripts/python/hf_model_search.py), a shallow embedding in Lean 4.

The external Hugging Face API is modelled by data carried on each candidate:
the answer the API would give to `model_info` (or `none` when the call would
raise), the parsed last-modified timestamp expressed as whole days before
"now" (or `none` when the timestamp is absent, unparseable, or naive so that
the subtraction raises), and the answer to `list_repo_files` (or `none` when
that call would raise).  Python float arithmetic is idealised as exact
rational arithmetic over `ℚ`.
-/

/-- The shape-probed answer of `api.model_info(repo_id)`: the `.downloads`
and `.likes` attributes (which may be `None`), and the `_json` fallbacks. -/
structure ModelInfoResp where
  downloads : Option Int
  jsonDownloads : Option Int
  likes : Option Int
  jsonLikes : Option Int
deriving DecidableEq

/-- A candidate model record together with the answers the external API
would give for it.  `modelId = ""` models a falsy/missing id (the
`getattr(m, "modelId", None) or getattr(m, "id", None)` chain yielding
nothing); `infoResp = none` models `api.model_info` raising; `lastmodDays`
is the value of `(now - lastmod).days` when `get_lastmodified_safe` returns
a parseable aware timestamp, and `none` otherwise; `repoFiles = none`
models `api.list_repo_files` raising. -/
structure HFModel where
  modelId : String
  pipeline_tag : String
  tags : List String
  infoResp : Option ModelInfoResp
  lastmodDays : Option Int
  repoFiles : Option (List String)
deriving DecidableEq

/-- The per-candidate dict built by the fetch loop of `rank_models`
(lines 166-182): repo id, fetched metrics, parsed last-modified data and
the collected tag set (kept as a list). -/
structure Item where
  repo_id : String
  model : HFModel
  downloads : Int
  likes : Int
  lastmodDays : Option Int
  tags : List String
deriving DecidableEq

/-- One element of the list returned by `rank_models`: the Python code
returns `(metric, repo_id, model)` triples in the downloads/likes modes and
`(downloads, repo_id, model, meta)` 4-tuples in composite mode; `meta`
is `none` for the triples and `some item` for the 4-tuples. -/
structure RankEntry where
  displayMetric : Int
  repo_id : String
  model : HFModel
  meta : Option Item
deriving DecidableEq

inductive SortMode
  | downloads
  | likes
  | composite
deriving DecidableEq

/-- `get_downloads_safe` (lines 39-56): 0 when the fetch raises, else the
`.downloads` attribute, else the `_json` fallback, else 0. -/
def get_downloads_safe : Option ModelInfoResp → Int
  | none => 0
  | some info =>
    match info.downloads with
    | some v => v
    | none =>
      match info.jsonDownloads with
      | some d => d
      | none => 0

/-- `get_likes_safe` (lines 59-73): same contract as downloads. -/
def get_likes_safe : Option ModelInfoResp → Int
  | none => 0
  | some info =>
    match info.likes with
    | some v => v
    | none =>
      match info.jsonLikes with
      | some v => v
      | none => 0

/-- Boolean test that `sub` is an initial segment of the second list. -/
def listPrefixOf : List Char → List Char → Bool
  | [], _ => true
  | _ :: _, [] => false
  | a :: s, b :: t => a == b && listPrefixOf s t

/-- Python `sub in s` on the character lists. -/
def listContainsSub (sub : List Char) : List Char → Bool
  | [] => listPrefixOf sub []
  | c :: t => listPrefixOf sub (c :: t) || listContainsSub sub t

/-- Python substring test `sub in s`. -/
def strContains (s sub : String) : Bool := listContainsSub sub.data s.data

/-- Python `s.lower()`: per-character ASCII lowering (the Lean library
`String.toLower` is the same character map, but is defined by well-founded
recursion on byte positions; this structural form evaluates). -/
def strLower (s : String) : String := String.mk (s.data.map Char.toLower)

/-- Python `s.endswith(suf)`. -/
def strEndsWith (s suf : String) : Bool := listPrefixOf suf.data.reverse s.data.reverse

/-- Weight-type probing (lines 219-231): lowercase the file listing, then
test `".gguf" in f`, `f.endswith(".safetensors")`, and
`"pytorch_model" in f or f.endswith(".bin")`.  A raising `list_repo_files`
(`none`) yields the empty list. -/
def weightTypesOfFiles : Option (List String) → List String
  | none => []
  | some files =>
    let lower := files.map strLower
    (if lower.any (fun f => strContains f ".gguf") then ["gguf"] else []) ++
      (if lower.any (fun f => strEndsWith f ".safetensors") then ["safetensors"] else []) ++
      (if lower.any (fun f => strContains f "pytorch_model" || strEndsWith f ".bin") then ["pytorch"]
        else [])

/-- `repo.split("/")[0]` (line 233): the portion of the id before the first
slash; the whole id when there is no slash. -/
def ownerOf (repo : String) : String := String.mk (repo.data.takeWhile (fun c => c != '/'))

/-- The hardcoded trusted-publisher allow-list (line 216). -/
def trusted_orgs : List String :=
  ["TheBloke", "stabilityai", "meta", "openai", "huggingface", "EleutherAI", "bigscience",
    "microsoft"]

/-- Maximal run of decimal digits at the head of the list, with the rest. -/
def takeDigits : List Char → List Char × List Char
  | [] => ([], [])
  | c :: t =>
    if c.isDigit then
      let p := takeDigits t
      (c :: p.1, p.2)
    else ([], c :: t)

/-- Drop leading whitespace (the `\s*` of the pattern). -/
def skipSpaces : List Char → List Char
  | [] => []
  | c :: t => if c.isWhitespace then skipSpaces t else c :: t

/-- Python `\w` on the ASCII inputs at hand. -/
def isWordChar (c : Char) : Bool := c.isAlphanum || c == '_'

/-- After the numeral: `\s*[bB]\b` — skip whitespace, expect `b` or `B`,
then a word boundary (end of string or a non-word character). -/
def tailOkB (l : List Char) : Bool :=
  match skipSpaces l with
  | [] => false
  | c :: rest =>
    (c == 'b' || c == 'B') &&
      (match rest with
       | [] => true
       | d :: _ => !isWordChar d)

/-- Numeric value of a digit run. -/
def digitsVal (ds : List Char) : Nat :=
  ds.foldl (fun a c => a * 10 + (c.toNat - '0'.toNat)) 0

/-- Try to match `(\d+(?:\.\d+)?)\s*[bB]\b` anchored at the head of the
list, returning the value of the numeral.  Regex backtracking never helps here:
shrinking a greedy digit run leaves a digit in front of `[bB]`, and when a
fractional part is present but the tail fails, the no-fraction alternative
faces a `.` in front of `[bB]`; both fail, so the translation is
deterministic. -/
def matchBAt (l : List Char) : Option ℚ :=
  match takeDigits l with
  | ([], _) => none
  | (ds, rest) =>
    match rest with
    | '.' :: r2 =>
      (match takeDigits r2 with
       | ([], _) => if tailOkB rest then some ((digitsVal ds : ℚ)) else none
       | (fs, r3) =>
         if tailOkB r3 then
           some ((digitsVal ds : ℚ) + (digitsVal fs : ℚ) / ((10 : ℚ) ^ fs.length))
         else none)
    | _ => if tailOkB rest then some ((digitsVal ds : ℚ)) else none

/-- `re.search` scanning: try each start position, leftmost first. -/
def parse_b_from_id_aux : List Char → Option ℚ
  | [] => none
  | c :: t =>
    match matchBAt (c :: t) with
    | some v => some v
    | none => parse_b_from_id_aux t

/-- `_parse_b_from_id` (lines 145-155): find the first
`(\d+(?:\.\d+)?)\s*[bB]\b` match in the id and return its numeric value. -/
def parse_b_from_id (s : String) : Option ℚ := parse_b_from_id_aux s.data

/-- Python `max(list, default=d)` / `max(list) if list else d`. -/
def pyMaxD (d : Int) : List Int → Int
  | [] => d
  | a :: t => t.foldl max a

/-- Python slice `l[:n]` for an arbitrary integer `n`. -/
def pyTake {α : Type} (n : Int) (l : List α) : List α :=
  if 0 ≤ n then l.take n.toNat else l.take ((l.length : Int) + n).toNat

/-- Insert an element into a list sorted by `key` descending, before the
first element whose key is not larger; this is where a stable descending
sort places an element that precedes the whole list in the input. -/
def insertDesc {α β : Type} [LinearOrder β] (key : α → β) (a : α) : List α → List α
  | [] => [a]
  | b :: l => if key b ≤ key a then a :: b :: l else b :: insertDesc key a l

/-- Python `list.sort(key=key, reverse=True)`: stable sort, descending by
key, ties kept in input order. -/
def sortDesc {α β : Type} [LinearOrder β] (key : α → β) : List α → List α
  | [] => []
  | a :: l => insertDesc key a (sortDesc key l)

/-- The dict built for one candidate in the fetch loop (lines 166-181). -/
def mkItem (m : HFModel) : Item :=
  { repo_id := m.modelId
    model := m
    downloads := get_downloads_safe m.infoResp
    likes := get_likes_safe m.infoResp
    lastmodDays := m.lastmodDays
    tags := (if m.pipeline_tag ≠ "" then [m.pipeline_tag] else []) ++ m.tags }

/-- The fetch loop of `rank_models`: candidates whose id resolves to
nothing are skipped (line 168-169), the rest get their metrics fetched. -/
def mkItems (models : List HFModel) : List Item :=
  models.filterMap (fun m => if m.modelId = "" then none else some (mkItem m))

/-- Recency in days (lines 204-212): `max(0, (now - lastmod).days)` when
the subtraction succeeds, 365 otherwise. -/
def recencyDays (x : Item) : Int :=
  match x.lastmodDays with
  | some d => max 0 d
  | none => 365

/-- Weight types of an item, via the probe on its repository files. -/
def weightTypesOf (x : Item) : List String := weightTypesOfFiles x.model.repoFiles

/-- Tag boost (lines 267-272): +0.2 when the lowered tag set contains
"text-generation" or the raw pipeline tag contains it as a substring,
+0.15 more when the lowered tag set contains "transformers". -/
def tagBoost (x : Item) : ℚ :=
  let low_tags := (x.tags.filter (fun t => t ≠ "")).map strLower
  (if low_tags.contains "text-generation" ||
      strContains x.model.pipeline_tag "text-generation" then 0.2 else 0) +
    (if low_tags.contains "transformers" then 0.15 else 0)

/-- Weight boost (lines 274-281): additive +0.35 / +0.2 / +0.1 for
gguf / safetensors / pytorch, guarded by the weight list being truthy. -/
def weightBoost (wt : List String) : ℚ :=
  if wt ≠ [] then
    (if wt.contains "gguf" then 0.35 else 0) + (if wt.contains "safetensors" then 0.2 else 0) +
      (if wt.contains "pytorch" then 0.1 else 0)
  else 0

/-- Owner boost (lines 283-285): 0.25 for a trusted owner, else 0. -/
def ownerBoost (owner : String) : ℚ := if trusted_orgs.contains owner then 0.25 else 0

/-- The composite score for one candidate (lines 261-288), taking the
normalization frame (batch maxima) and the recency value the code pairs
with the candidate as arguments. -/
def candScore (max_dl max_likes max_rec : Int) (x : Item) (recency_days : Int) : ℚ :=
  let dl_norm : ℚ := if max_dl > 0 then (x.downloads : ℚ) / (max_dl : ℚ) else 0
  let likes_norm : ℚ := if max_likes > 0 then (x.likes : ℚ) / (max_likes : ℚ) else 0
  let rec_norm : ℚ :=
    if max_rec > 0 then ((max_rec : ℚ) - (recency_days : ℚ)) / (max_rec : ℚ) else 0
  dl_norm * 0.45 + likes_norm * 0.25 + rec_norm * 0.15 + tagBoost x +
    weightBoost (weightTypesOf x) + ownerBoost (ownerOf x.repo_id)

/-- The `gguf_only` filter (lines 238-239). -/
def ggufOnlyFilter (items : List Item) : List Item :=
  items.filter (fun it => !(weightTypesOf it).isEmpty && (weightTypesOf it).contains "gguf")

/-- Size-in-billions resolution for the `max_b` filter (lines 243-248):
parse the id; a falsy result (0.0 or no match) becomes `None`; only then
scan the tags, each truthy parse overriding the accumulator. -/
def sizeBOf (it : Item) : Option ℚ :=
  let fromId : Option ℚ :=
    match parse_b_from_id it.repo_id with
    | some v => if v = 0 then none else some v
    | none => none
  match fromId with
  | some v => some v
  | none =>
    it.tags.foldl
      (fun acc t =>
        match parse_b_from_id t with
        | some v => if v = 0 then acc else some v
        | none => acc)
      none

/-- The `max_b` filter (lines 241-259): candidates with a known size are
kept iff the size is at most the bound; candidates with no size are kept
iff they have weight types. -/
def maxBFilter (mb : ℚ) (items : List Item) : List Item :=
  items.filter (fun it =>
    match sizeBOf it with
    | some v => decide (v ≤ mb)
    | none => !(weightTypesOf it).isEmpty)

/-- The composite `scored` list of `rank_models` (lines 195-289), before
sorting: batch maxima and the recency list are computed over the unfiltered
items, the gguf/max-b filters shrink the item list, and the scoring loop
then pairs the i-th surviving item with `recencies[i]` — the recency list
is indexed by post-filter position, exactly as in the source. -/
def compositeScored (items : List Item) (gguf_only : Bool) (max_b : Option ℚ) :
    List (ℚ × Item) :=
  let max_dl := pyMaxD 1 (items.map (·.downloads))
  let max_likes := pyMaxD 1 (items.map (·.likes))
  let recencies := items.map recencyDays
  let max_rec := pyMaxD 1 recencies
  let items1 := if gguf_only then ggufOnlyFilter items else items
  let items2 :=
    match max_b with
    | some mb => maxBFilter mb items1
    | none => items1
  List.zipWith (fun x d => (candScore max_dl max_likes max_rec x d, x)) items2 recencies

/-- The stable descending sort of the downloads fast path (line 188). -/
def downloadsRanked (items : List Item) : List Item := sortDesc (fun x => x.downloads) items

/-- The stable descending sort of the likes fast path (line 192). -/
def likesRanked (items : List Item) : List Item := sortDesc (fun x => x.likes) items

/-- `rank_models` (lines 158-300). -/
def rank_models (models : List HFModel) (top_n : Int) (sort_mode : SortMode)
    (require_weights : Bool) (gguf_only : Bool) (max_b : Option ℚ) : List RankEntry :=
  let items := mkItems models
  if items.isEmpty then []
  else
    match sort_mode with
    | .downloads =>
      (pyTake top_n (downloadsRanked items)).map
        (fun x => ⟨x.downloads, x.repo_id, x.model, none⟩)
    | .likes =>
      (pyTake top_n (likesRanked items)).map (fun x => ⟨x.likes, x.repo_id, x.model, none⟩)
    | .composite =>
      let scored := compositeScored items gguf_only max_b
      let sorted := sortDesc (fun s => s.1) scored
      let sorted2 :=
        if require_weights then sorted.filter (fun s => !(weightTypesOf s.2).isEmpty) else sorted
      (pyTake top_n sorted2).map (fun s => ⟨s.2.downloads, s.2.repo_id, s.2.model, some s.2⟩)

/-! ### Generic lemmas about the stable descending sort -/

theorem mem_insertDesc {α β : Type} [LinearOrder β] (key : α → β) (a x : α) (l : List α) :
    x ∈ insertDesc key a l ↔ x = a ∨ x ∈ l := by
  induction l with
  | nil => simp [insertDesc]
  | cons b t ih =>
    by_cases h : key b ≤ key a
    · simp [insertDesc, h]
    · simp [insertDesc, h, ih]
      tauto

theorem insertDesc_perm {α β : Type} [LinearOrder β] (key : α → β) (a : α) (l : List α) :
    List.Perm (insertDesc key a l) (a :: l) := by
  induction l with
  | nil => simp [insertDesc]
  | cons b t ih =>
    by_cases h : key b ≤ key a
    · simp [insertDesc, h]
    · simp only [insertDesc, if_neg h]
      exact (ih.cons b).trans (List.Perm.swap a b t)

theorem sortDesc_perm {α β : Type} [LinearOrder β] (key : α → β) (l : List α) :
    List.Perm (sortDesc key l) l := by
  induction l with
  | nil => simp [sortDesc]
  | cons a t ih => exact (insertDesc_perm key a (sortDesc key t)).trans (ih.cons a)

theorem pairwise_insertDesc {α β : Type} [LinearOrder β] (key : α → β) (a : α) (l : List α)
    (h : l.Pairwise (fun x y => key y ≤ key x)) :
    (insertDesc key a l).Pairwise (fun x y => key y ≤ key x) := by
  induction l with
  | nil => simp [insertDesc]
  | cons b t ih =>
    rcases List.pairwise_cons.mp h with ⟨hb, ht⟩
    by_cases hba : key b ≤ key a
    · rw [insertDesc, if_pos hba]
      refine List.pairwise_cons.mpr ⟨?_, h⟩
      intro y hy
      rcases List.mem_cons.mp hy with rfl | hyt
      · exact hba
      · exact le_trans (hb y hyt) hba
    · rw [insertDesc, if_neg hba]
      refine List.pairwise_cons.mpr ⟨?_, ih ht⟩
      intro y hy
      rcases (mem_insertDesc key a y t).mp hy with rfl | hyt
      · exact le_of_lt (lt_of_not_le hba)
      · exact hb y hyt

theorem sortDesc_pairwise {α β : Type} [LinearOrder β] (key : α → β) (l : List α) :
    (sortDesc key l).Pairwise (fun x y => key y ≤ key x) := by
  induction l with
  | nil => simp [sortDesc]
  | cons a t ih => exact pairwise_insertDesc key a (sortDesc key t) ih

theorem filter_insertDesc_eq {α β : Type} [LinearOrder β] [DecidableEq β] (key : α → β)
    (a : α) (l : List α) (c : β) (hc : key a = c) :
    (insertDesc key a l).filter (fun x => key x == c) =
      a :: l.filter (fun x => key x == c) := by
  subst hc
  induction l with
  | nil => simp [insertDesc]
  | cons b t ih =>
    by_cases h : key b ≤ key a
    · simp [insertDesc, h]
    · have hbc : (key b == key a) = false := by
        refine beq_eq_false_iff_ne.mpr ?_
        intro hbceq
        exact h (le_of_eq hbceq)
      simp only [insertDesc, if_neg h, List.filter_cons, hbc]
      simpa [hbc] using ih

theorem filter_insertDesc_ne {α β : Type} [LinearOrder β] [DecidableEq β] (key : α → β)
    (a : α) (l : List α) (c : β) (hc : key a ≠ c) :
    (insertDesc key a l).filter (fun x => key x == c) = l.filter (fun x => key x == c) := by
  have hac : (key a == c) = false := beq_eq_false_iff_ne.mpr hc
  induction l with
  | nil => simp [insertDesc, hac]
  | cons b t ih =>
    by_cases h : key b ≤ key a
    · simp [insertDesc, h, hac]
    · simp only [insertDesc, if_neg h, List.filter_cons]
      rw [ih]

theorem sortDesc_filter_eq {α β : Type} [LinearOrder β] [DecidableEq β] (key : α → β)
    (l : List α) (c : β) :
    (sortDesc key l).filter (fun x => key x == c) = l.filter (fun x => key x == c) := by
  induction l with
  | nil => simp [sortDesc]
  | cons a t ih =>
    by_cases hc : key a = c
    · rw [sortDesc, filter_insertDesc_eq key a (sortDesc key t) c hc, ih, List.filter_cons,
        if_pos (by simpa using beq_iff_eq.mpr hc)]
    · rw [sortDesc, filter_insertDesc_ne key a (sortDesc key t) c hc, ih, List.filter_cons,
        if_neg (by simp [beq_eq_false_iff_ne.mpr hc])]

/-! ### Small list lemmas -/

theorem zipWith_map_self {α γ δ : Type} (l : List α) (g : α → γ) (f : α → γ → δ) :
    List.zipWith f l (l.map g) = l.map (fun x => f x (g x)) := by
  induction l with
  | nil => rfl
  | cons a t ih => simpa using ih

theorem zipWith_pair_map_snd {α γ δ : Type} (f : α → γ → δ) (l1 : List α) (l2 : List γ)
    (h : l1.length ≤ l2.length) :
    (List.zipWith (fun x d => (f x d, x)) l1 l2).map Prod.snd = l1 := by
  induction l1 generalizing l2 with
  | nil => rfl
  | cons a t ih =>
    cases l2 with
    | nil => simp at h
    | cons b u =>
      simp only [List.zipWith, List.map_cons]
      rw [ih u (by simpa using h)]

theorem le_foldl_max (l : List Int) (b : Int) : b ≤ l.foldl max b := by
  induction l generalizing b with
  | nil => exact le_refl b
  | cons a t ih => exact le_trans (le_max_left b a) (ih (max b a))

theorem mem_le_foldl_max (l : List Int) (b a : Int) (h : a ∈ l) : a ≤ l.foldl max b := by
  induction l generalizing b with
  | nil => cases h
  | cons x t ih =>
    rcases List.mem_cons.mp h with rfl | ht
    · exact le_trans (le_max_right b a) (le_foldl_max t (max b a))
    · exact ih (max b x) ht

theorem mem_le_pyMaxD (d : Int) (l : List Int) (a : Int) (h : a ∈ l) : a ≤ pyMaxD d l := by
  cases l with
  | nil => cases h
  | cons x t =>
    rcases List.mem_cons.mp h with rfl | ht
    · exact le_foldl_max t a
    · exact mem_le_foldl_max t x a ht

theorem pyTake_subset {α : Type} (n : Int) (l : List α) : pyTake n l ⊆ l := by
  unfold pyTake
  by_cases h : 0 ≤ n
  · rw [if_pos h]; exact List.take_subset _ l
  · rw [if_neg h]; exact List.take_subset _ l

theorem pyTake_length_le {α : Type} (n : Int) (l : List α) (h : 0 ≤ n) :
    (pyTake n l).length ≤ min n.toNat l.length := by
  rw [pyTake, if_pos h, List.length_take]

/-! ### Claim-side definitions (written from the words of the spec/claims,
to be compared with the source-side definitions above) -/

/-- Claim-side tag boost: +0.20 for a "text-generation" tag (case
insensitive) or pipeline tag, plus +0.15 for a "transformers" tag. -/
def claimTagBoost (x : Item) : ℚ :=
  (if (x.tags.map strLower).contains "text-generation" ||
      strContains x.model.pipeline_tag "text-generation" then 0.2 else 0) +
    (if (x.tags.map strLower).contains "transformers" then 0.15 else 0)

/-- Claim-side weight boost: additively +0.35 for gguf, +0.20 for
safetensors, +0.10 for pytorch. -/
def claimWeightBoost (wt : List String) : ℚ :=
  (if wt.contains "gguf" then 0.35 else 0) + (if wt.contains "safetensors" then 0.2 else 0) +
    (if wt.contains "pytorch" then 0.1 else 0)

/-- Claim-side owner boost: +0.25 for a trusted owner. -/
def claimOwnerBoost (owner : String) : ℚ := if trusted_orgs.contains owner then 0.25 else 0

/-- The composite score exactly as claim C1 states it: every normalization
denominator floored at 1, in particular
`maxRecencyDays = max(all recency values, floor 1)`, and each candidate
scored with its own recency value. -/
def claimScore (items : List Item) (x : Item) : ℚ :=
  let maxDl := max (pyMaxD 1 (items.map (·.downloads))) 1
  let maxLk := max (pyMaxD 1 (items.map (·.likes))) 1
  let maxRec := max (pyMaxD 1 (items.map recencyDays)) 1
  (x.downloads : ℚ) / (maxDl : ℚ) * 0.45 + (x.likes : ℚ) / (maxLk : ℚ) * 0.25 +
    ((maxRec : ℚ) - (recencyDays x : ℚ)) / (maxRec : ℚ) * 0.15 +
    claimTagBoost x + claimWeightBoost (weightTypesOf x) + claimOwnerBoost (ownerOf x.repo_id)

/-- The composite score as amended: the recency denominator is the batch
maximum with no floor of 1 and the recency term is 0 when that maximum is
not positive, matching the source guard `if max_rec > 0 else 0`. -/
def amendedClaimScore (items : List Item) (x : Item) : ℚ :=
  let maxDl := max (pyMaxD 1 (items.map (·.downloads))) 1
  let maxLk := max (pyMaxD 1 (items.map (·.likes))) 1
  let maxRec := pyMaxD 1 (items.map recencyDays)
  (x.downloads : ℚ) / (maxDl : ℚ) * 0.45 + (x.likes : ℚ) / (maxLk : ℚ) * 0.25 +
    (if maxRec > 0 then ((maxRec : ℚ) - (recencyDays x : ℚ)) / (maxRec : ℚ) else 0) * 0.15 +
    claimTagBoost x + claimWeightBoost (weightTypesOf x) + claimOwnerBoost (ownerOf x.repo_id)

/-- Claim-side reading of "candidates remaining after filters" for C6: the
candidate list after the requested filters (gguf-only, max-b,
requireWeights), whatever the sort mode. -/
def specAfterFilters (models : List HFModel) (require_weights gguf_only : Bool)
    (max_b : Option ℚ) : List Item :=
  let items := mkItems models
  let items1 := if gguf_only then ggufOnlyFilter items else items
  let items2 :=
    match max_b with
    | some mb => maxBFilter mb items1
    | none => items1
  if require_weights then items2.filter (fun it => !(weightTypesOf it).isEmpty) else items2

/-- The candidates remaining after the filters the code actually applies in
a given mode: none in the downloads/likes fast paths, the gguf-only, max-b
and requireWeights filters in composite mode. -/
def appliedFilteredItems (models : List HFModel) (sort_mode : SortMode)
    (require_weights gguf_only : Bool) (max_b : Option ℚ) : List Item :=
  match sort_mode with
  | .downloads => mkItems models
  | .likes => mkItems models
  | .composite =>
    let items := mkItems models
    let items1 := if gguf_only then ggufOnlyFilter items else items
    let items2 :=
      match max_b with
      | some mb => maxBFilter mb items1
      | none => items1
    if require_weights then items2.filter (fun it => !(weightTypesOf it).isEmpty) else items2

/-! ### Boost lemmas -/

theorem contains_filter_toLower (l : List String) (s : String) (hs : s ≠ "") :
    ((l.filter (fun t => t ≠ "")).map strLower).contains s =
      (l.map strLower).contains s := by
  have key : s ∈ (l.filter (fun t => t ≠ "")).map strLower ↔ s ∈ l.map strLower := by
    simp only [List.mem_map, List.mem_filter]
    constructor
    · rintro ⟨a, ⟨ha, _⟩, rfl⟩
      exact ⟨a, ha, rfl⟩
    · rintro ⟨a, ha, rfl⟩
      refine ⟨a, ⟨ha, ?_⟩, rfl⟩
      have hane : a ≠ "" := by
        intro h0
        subst h0
        exact hs (by decide)
      simpa using hane
  by_cases hmem : s ∈ l.map strLower
  · have e1 : ((l.filter (fun t => t ≠ "")).map strLower).contains s = true :=
      List.elem_iff.mpr (key.mpr hmem)
    have e2 : (l.map strLower).contains s = true := List.elem_iff.mpr hmem
    rw [e1, e2]
  · have h1 : ((l.filter (fun t => t ≠ "")).map strLower).contains s = false := by
      by_contra hb
      exact hmem (key.mp (List.elem_iff.mp (Bool.not_eq_false _ ▸ hb)))
    have h2 : (l.map strLower).contains s = false := by
      by_contra hb
      exact hmem (List.elem_iff.mp (Bool.not_eq_false _ ▸ hb))
    rw [h1, h2]

theorem tagBoost_eq_claim (x : Item) : tagBoost x = claimTagBoost x := by
  unfold tagBoost claimTagBoost
  simp only [contains_filter_toLower x.tags "text-generation" (by decide),
    contains_filter_toLower x.tags "transformers" (by decide)]

theorem weightBoost_eq_claim (wt : List String) : weightBoost wt = claimWeightBoost wt := by
  cases wt with
  | nil => simp [weightBoost, claimWeightBoost]
  | cons a t => simp [weightBoost, claimWeightBoost]

theorem ownerBoost_eq_claim (o : String) : ownerBoost o = claimOwnerBoost o := rfl

theorem tagBoost_nonneg (x : Item) : 0 ≤ tagBoost x := by
  unfold tagBoost
  have h1 : (0 : ℚ) ≤
      (if ((x.tags.filter (fun t => t ≠ "")).map strLower).contains "text-generation" ||
          strContains x.model.pipeline_tag "text-generation" then (0.2 : ℚ) else 0) := by
    split <;> norm_num
  have h2 : (0 : ℚ) ≤
      (if ((x.tags.filter (fun t => t ≠ "")).map strLower).contains "transformers" then
        (0.15 : ℚ) else 0) := by
    split <;> norm_num
  linarith

theorem weightBoost_nonneg (wt : List String) : 0 ≤ weightBoost wt := by
  unfold weightBoost
  split
  · have h1 : (0 : ℚ) ≤ (if wt.contains "gguf" then (0.35 : ℚ) else 0) := by split <;> norm_num
    have h2 : (0 : ℚ) ≤ (if wt.contains "safetensors" then (0.2 : ℚ) else 0) := by
      split <;> norm_num
    have h3 : (0 : ℚ) ≤ (if wt.contains "pytorch" then (0.1 : ℚ) else 0) := by
      split <;> norm_num
    linarith
  · exact le_refl 0

theorem ownerBoost_nonneg (o : String) : 0 ≤ ownerBoost o := by
  unfold ownerBoost
  split <;> norm_num

theorem weightBoost_mono (wt1 wt2 : List String) (h : ∀ s, s ∈ wt1 → s ∈ wt2) :
    weightBoost wt1 ≤ weightBoost wt2 := by
  cases wt1 with
  | nil => simpa [weightBoost] using weightBoost_nonneg wt2
  | cons a t =>
    have h2 : wt2 ≠ [] := by
      intro hw
      have := h a (List.mem_cons_self a t)
      rw [hw] at this
      cases this
    have hterm : ∀ s : String, ∀ v : ℚ, 0 ≤ v →
        (if (a :: t).contains s then v else 0) ≤ (if wt2.contains s then v else 0) := by
      intro s v hv
      by_cases hs : (a :: t).contains s
      · have hw2 : wt2.contains s := List.elem_iff.mpr (h s (List.elem_iff.mp hs))
        rw [if_pos hs, if_pos hw2]
      · rw [if_neg hs]
        split <;> norm_num [hv]
    have g1 := hterm "gguf" 0.35 (by norm_num)
    have g2 := hterm "safetensors" 0.2 (by norm_num)
    have g3 := hterm "pytorch" 0.1 (by norm_num)
    rw [weightBoost, weightBoost, if_pos (by simp), if_pos h2]
    linarith

/-! ### Bridging lemmas for the composite score -/

theorem compositeScored_no_filters (items : List Item) :
    compositeScored items false none =
      items.map (fun x =>
        (candScore (pyMaxD 1 (items.map (fun y => y.downloads)))
          (pyMaxD 1 (items.map (fun y => y.likes))) (pyMaxD 1 (items.map recencyDays)) x
          (recencyDays x), x)) :=
  zipWith_map_self items recencyDays _

theorem norm_guard_eq (v m : Int) (hv : 0 ≤ v) (hvm : v ≤ m) :
    (if m > 0 then (v : ℚ) / (m : ℚ) else 0) = (v : ℚ) / ((max m 1 : Int) : ℚ) := by
  by_cases h : (0 : Int) < m
  · rw [if_pos h, max_eq_left (by omega : (1 : Int) ≤ m)]
  · rw [if_neg h]
    have hv0 : v = 0 := by omega
    subst hv0
    rw [Int.cast_zero, zero_div]

theorem candScore_eq_amended (items : List Item) (x : Item) (hx : x ∈ items)
    (hd : ∀ y ∈ items, 0 ≤ y.downloads) (hl : ∀ y ∈ items, 0 ≤ y.likes) :
    candScore (pyMaxD 1 (items.map (fun y => y.downloads)))
      (pyMaxD 1 (items.map (fun y => y.likes))) (pyMaxD 1 (items.map recencyDays)) x
      (recencyDays x) = amendedClaimScore items x := by
  have hdx : x.downloads ≤ pyMaxD 1 (items.map (fun y => y.downloads)) :=
    mem_le_pyMaxD _ _ _ (List.mem_map_of_mem _ hx)
  have hlx : x.likes ≤ pyMaxD 1 (items.map (fun y => y.likes)) :=
    mem_le_pyMaxD _ _ _ (List.mem_map_of_mem _ hx)
  simp only [candScore, amendedClaimScore]
  rw [norm_guard_eq _ _ (hd x hx) hdx, norm_guard_eq _ _ (hl x hx) hlx, tagBoost_eq_claim,
    weightBoost_eq_claim, ownerBoost_eq_claim]

/-! ### Monotonicity lemmas for the composite score -/

theorem ownerBoost_mono (o1 o2 : String)
    (h : trusted_orgs.contains o1 = true → trusted_orgs.contains o2 = true) :
    ownerBoost o1 ≤ ownerBoost o2 := by
  unfold ownerBoost
  by_cases h1 : trusted_orgs.contains o1
  · rw [if_pos h1, if_pos (h h1)]
  · rw [if_neg h1]
    split <;> norm_num

theorem div_if_mono (m : Int) (a b : ℚ) (hab : a ≤ b) :
    (if m > 0 then a / (m : ℚ) else 0) ≤ (if m > 0 then b / (m : ℚ) else 0) := by
  by_cases h : (0 : Int) < m
  · rw [if_pos h, if_pos h]
    have hm : (0 : ℚ) < (m : ℚ) := by exact_mod_cast h
    exact (div_le_div_iff_of_pos_right hm).mpr hab
  · rw [if_neg h, if_neg h]

/-! ### Pointwise evaluation lemmas for concrete candidates -/

theorem tagBoost_eval_zero (x : Item)
    (h1 : (((x.tags.filter (fun t => t ≠ "")).map strLower).contains "text-generation" ||
      strContains x.model.pipeline_tag "text-generation") = false)
    (h2 : ((x.tags.filter (fun t => t ≠ "")).map strLower).contains "transformers" = false) :
    tagBoost x = 0 := by
  unfold tagBoost
  dsimp only
  rw [h1, h2]
  norm_num

theorem weightBoost_gguf : weightBoost ["gguf"] = 0.35 := by
  unfold weightBoost
  rw [if_pos (by decide : (["gguf"] : List String) ≠ []),
    (by decide : (["gguf"] : List String).contains "gguf" = true),
    (by decide : (["gguf"] : List String).contains "safetensors" = false),
    (by decide : (["gguf"] : List String).contains "pytorch" = false)]
  norm_num

theorem candScore_all_zero_guard (x : Item) (hw : weightTypesOf x = []) (ht : tagBoost x = 0)
    (ho : ownerBoost (ownerOf x.repo_id) = 0) (dl lk rec d : Int) (hdl : ¬dl > 0)
    (hlk : ¬lk > 0) (hrec : ¬rec > 0) : candScore dl lk rec x d = 0 := by
  unfold candScore
  rw [if_neg hdl, if_neg hlk, if_neg hrec, ht, hw, ho]
  norm_num [weightBoost]

theorem candScore_dl_lk_zero (x : Item) (dl lk rec d : Int) (hdl : ¬dl > 0) (hlk : ¬lk > 0) :
    candScore dl lk rec x d =
      (if rec > 0 then ((rec : ℚ) - (d : ℚ)) / (rec : ℚ) else 0) * 0.15 + tagBoost x +
        weightBoost (weightTypesOf x) + ownerBoost (ownerOf x.repo_id) := by
  unfold candScore
  rw [if_neg hdl, if_neg hlk]
  ring

/-! ### Concrete candidates used in counterexamples and witnesses -/

/-- A placeholder model record. -/
def dummyModel : HFModel :=
  { modelId := "", pipeline_tag := "", tags := [], infoResp := none, lastmodDays := none,
    repoFiles := none }

/-- A candidate modified today (recency 0 days) with no boosts at all. -/
def c1CexItem : Item :=
  { repo_id := "org/a", model := dummyModel, downloads := 0, likes := 0, lastmodDays := some 0,
    tags := [] }

/-- A weightless candidate 300 days old. -/
def c1CexA : Item :=
  { repo_id := "org/a", model := dummyModel, downloads := 0, likes := 0,
    lastmodDays := some 300, tags := [] }

/-- The model record behind `c1CexB`, exposing one gguf file. -/
def c1CexBModel : HFModel :=
  { modelId := "org/b", pipeline_tag := "", tags := [], infoResp := none, lastmodDays := some 0,
    repoFiles := some ["w.gguf"] }

/-- A gguf-carrying candidate modified today. -/
def c1CexB : Item :=
  { repo_id := "org/b", model := c1CexBModel, downloads := 0, likes := 0, lastmodDays := some 0,
    tags := [] }

/-- C1, counterexample.  Two concrete failures of the claimed formula: with
a batch whose only candidate was modified today, the code scores it 0 while
the claimed formula (with `maxRecencyDays` floored at 1) gives 0.15; and
with the gguf-only filter removing the first of two candidates, the code
pairs the survivor with the recency value of the dropped candidate and scores it
0.35 while the claimed formula (own recency) gives 0.5. -/
theorem c1_composite_score_counterexample :
    (compositeScored [c1CexItem] false none).map Prod.fst = [0] ∧
      claimScore [c1CexItem] c1CexItem = 0.15 ∧
      (compositeScored [c1CexA, c1CexB] true none).map Prod.fst = [0.35] ∧
      claimScore [c1CexA, c1CexB] c1CexB = 0.5 ∧
      (0 : ℚ) ≠ 0.15 ∧ (0.35 : ℚ) ≠ 0.5 := by
  have htb : tagBoost c1CexItem = 0 := tagBoost_eval_zero _ (by decide) (by decide)
  have htbB : tagBoost c1CexB = 0 := tagBoost_eval_zero _ (by decide) (by decide)
  refine ⟨?_, ?_, ?_, ?_, by norm_num, by norm_num⟩
  · rw [compositeScored_no_filters]
    simp only [List.map_cons, List.map_nil]
    rw [candScore_all_zero_guard c1CexItem (by decide) htb (by decide)]
    · decide
    · decide
    · decide
  · unfold claimScore
    dsimp only
    rw [← tagBoost_eq_claim, ← weightBoost_eq_claim, ← ownerBoost_eq_claim, htb,
      (by decide : weightTypesOf c1CexItem = []),
      (by decide : ownerBoost (ownerOf c1CexItem.repo_id) = 0),
      (by decide : pyMaxD 1 ([c1CexItem].map (fun y => y.downloads)) = 0),
      (by decide : pyMaxD 1 ([c1CexItem].map (fun y => y.likes)) = 0),
      (by decide : pyMaxD 1 ([c1CexItem].map recencyDays) = 0),
      (by decide : recencyDays c1CexItem = 0),
      (by decide : c1CexItem.downloads = 0), (by decide : c1CexItem.likes = 0)]
    norm_num [weightBoost]
  · have hzip : compositeScored [c1CexA, c1CexB] true none =
        [(candScore (pyMaxD 1 ([c1CexA, c1CexB].map (fun y => y.downloads)))
          (pyMaxD 1 ([c1CexA, c1CexB].map (fun y => y.likes)))
          (pyMaxD 1 ([c1CexA, c1CexB].map recencyDays)) c1CexB (recencyDays c1CexA), c1CexB)] := by
      unfold compositeScored
      rw [if_pos rfl, (by decide : ggufOnlyFilter [c1CexA, c1CexB] = [c1CexB])]
      rfl
    rw [hzip]
    simp only [List.map_cons, List.map_nil]
    rw [candScore_dl_lk_zero c1CexB _ _ _ _ (by decide) (by decide), htbB,
      (by decide : weightTypesOf c1CexB = ["gguf"]), weightBoost_gguf,
      (by decide : ownerBoost (ownerOf c1CexB.repo_id) = 0),
      (by decide : recencyDays c1CexA = 300), (by decide : recencyDays c1CexB = 0),
      (by decide : pyMaxD 1 [(300 : Int), 0] = 300)]
    norm_num
  · unfold claimScore
    dsimp only
    rw [← tagBoost_eq_claim, ← weightBoost_eq_claim, ← ownerBoost_eq_claim, htbB,
      (by decide : weightTypesOf c1CexB = ["gguf"]), weightBoost_gguf,
      (by decide : ownerBoost (ownerOf c1CexB.repo_id) = 0),
      (by decide : pyMaxD 1 ([c1CexA, c1CexB].map (fun y => y.downloads)) = 0),
      (by decide : pyMaxD 1 ([c1CexA, c1CexB].map (fun y => y.likes)) = 0),
      (by decide : pyMaxD 1 ([c1CexA, c1CexB].map recencyDays) = 300),
      (by decide : recencyDays c1CexB = 0),
      (by decide : c1CexB.downloads = 0), (by decide : c1CexB.likes = 0)]
    norm_num

/-- A candidate for the C1 witness. -/
def c1WItem : Item :=
  { repo_id := "TheBloke/somemodel", model := dummyModel, downloads := 5, likes := 2,
    lastmodDays := some 3, tags := ["transformers"] }

/-- C1, amended.  With the gguf-only and max-b filters off and non-negative
fetched metrics, the composite scoring stage pairs every candidate with
exactly downloadsNorm*0.45 + likesNorm*0.25 + recencyNorm*0.15 + tagBoost +
weightBoost + ownerBoost, where downloadsNorm and likesNorm are normalised
by the batch maximum floored at 1 as claimed, but recencyNorm uses the
batch maximum recency with no floor of 1, and is 0 when that maximum is 0
(all candidates modified today). -/
theorem c1_composite_score_amended (items : List Item)
    (hd : ∀ y ∈ items, 0 ≤ y.downloads) (hl : ∀ y ∈ items, 0 ≤ y.likes) :
    compositeScored items false none = items.map (fun x => (amendedClaimScore items x, x)) := by
  rw [compositeScored_no_filters]
  apply List.map_congr_left
  intro x hx
  rw [candScore_eq_amended items x hx hd hl]

/-- Witness for `c1_composite_score_amended` at a concrete one-candidate
batch. -/
theorem c1_composite_score_amended_witness :
    compositeScored [c1WItem] false none =
      [c1WItem].map (fun x => (amendedClaimScore [c1WItem] x, x)) :=
  c1_composite_score_amended [c1WItem] (by decide) (by decide)

/-! ### C2: monotonicity of the composite score -/

theorem weightBoost_st_pt : weightBoost ["safetensors", "pytorch"] = 0.3 := by
  unfold weightBoost
  rw [if_pos (by decide : (["safetensors", "pytorch"] : List String) ≠ []),
    (by decide : (["safetensors", "pytorch"] : List String).contains "gguf" = false),
    (by decide : (["safetensors", "pytorch"] : List String).contains "safetensors" = true),
    (by decide : (["safetensors", "pytorch"] : List String).contains "pytorch" = true)]
  norm_num

/-- C2, amended.  Holding the normalization frame (the batch maxima) and
all other candidate inputs fixed, the composite score is monotonically
non-decreasing in downloads, likes, recency (fewer days since last
modification), the weight-type set under inclusion, and trusted-owner
membership. -/
theorem c2_monotonicity_amended (maxDl maxLikes maxRec d : Int) :
    (∀ x1 x2 : Item, x1.model = x2.model → x1.tags = x2.tags → x1.repo_id = x2.repo_id →
      x1.likes = x2.likes → x1.downloads ≤ x2.downloads →
      candScore maxDl maxLikes maxRec x1 d ≤ candScore maxDl maxLikes maxRec x2 d) ∧
    (∀ x1 x2 : Item, x1.model = x2.model → x1.tags = x2.tags → x1.repo_id = x2.repo_id →
      x1.downloads = x2.downloads → x1.likes ≤ x2.likes →
      candScore maxDl maxLikes maxRec x1 d ≤ candScore maxDl maxLikes maxRec x2 d) ∧
    (∀ x : Item, ∀ d1 d2 : Int, d1 ≤ d2 →
      candScore maxDl maxLikes maxRec x d2 ≤ candScore maxDl maxLikes maxRec x d1) ∧
    (∀ x1 x2 : Item, x1.model.pipeline_tag = x2.model.pipeline_tag → x1.tags = x2.tags →
      x1.repo_id = x2.repo_id → x1.downloads = x2.downloads → x1.likes = x2.likes →
      (∀ s, s ∈ weightTypesOf x1 → s ∈ weightTypesOf x2) →
      candScore maxDl maxLikes maxRec x1 d ≤ candScore maxDl maxLikes maxRec x2 d) ∧
    (∀ x1 x2 : Item, x1.model = x2.model → x1.tags = x2.tags → x1.downloads = x2.downloads →
      x1.likes = x2.likes →
      (trusted_orgs.contains (ownerOf x1.repo_id) = true →
        trusted_orgs.contains (ownerOf x2.repo_id) = true) →
      candScore maxDl maxLikes maxRec x1 d ≤ candScore maxDl maxLikes maxRec x2 d) := by
  refine ⟨?_, ?_, ?_, ?_, ?_⟩
  · intro x1 x2 hm htg hrp hlk hdl
    have htag : tagBoost x1 = tagBoost x2 := by unfold tagBoost; rw [hm, htg]
    have hwt : weightTypesOf x1 = weightTypesOf x2 := by unfold weightTypesOf; rw [hm]
    unfold candScore
    dsimp only
    rw [hlk, htag, hwt, hrp]
    have hq := div_if_mono maxDl (x1.downloads : ℚ) (x2.downloads : ℚ) (by exact_mod_cast hdl)
    have h045 := mul_le_mul_of_nonneg_right hq (by norm_num : (0 : ℚ) ≤ 0.45)
    linarith
  · intro x1 x2 hm htg hrp hdl hlk
    have htag : tagBoost x1 = tagBoost x2 := by unfold tagBoost; rw [hm, htg]
    have hwt : weightTypesOf x1 = weightTypesOf x2 := by unfold weightTypesOf; rw [hm]
    unfold candScore
    dsimp only
    rw [hdl, htag, hwt, hrp]
    have hq := div_if_mono maxLikes (x1.likes : ℚ) (x2.likes : ℚ) (by exact_mod_cast hlk)
    have h025 := mul_le_mul_of_nonneg_right hq (by norm_num : (0 : ℚ) ≤ 0.25)
    linarith
  · intro x d1 d2 h12
    unfold candScore
    dsimp only
    have hq : (if maxRec > 0 then ((maxRec : ℚ) - (d2 : ℚ)) / (maxRec : ℚ) else 0) ≤
        (if maxRec > 0 then ((maxRec : ℚ) - (d1 : ℚ)) / (maxRec : ℚ) else 0) := by
      by_cases h : (0 : Int) < maxRec
      · rw [if_pos h, if_pos h]
        have hm : (0 : ℚ) < (maxRec : ℚ) := by exact_mod_cast h
        exact (div_le_div_iff_of_pos_right hm).mpr (by
          have : (d1 : ℚ) ≤ (d2 : ℚ) := by exact_mod_cast h12
          linarith)
      · rw [if_neg h, if_neg h]
    have h015 := mul_le_mul_of_nonneg_right hq (by norm_num : (0 : ℚ) ≤ 0.15)
    linarith
  · intro x1 x2 hpt htg hrp hdl hlk hsub
    have htag : tagBoost x1 = tagBoost x2 := by unfold tagBoost; rw [hpt, htg]
    unfold candScore
    dsimp only
    rw [hdl, hlk, htag, hrp]
    linarith [weightBoost_mono (weightTypesOf x1) (weightTypesOf x2) hsub]
  · intro x1 x2 hm htg hdl hlk himp
    have htag : tagBoost x1 = tagBoost x2 := by unfold tagBoost; rw [hm, htg]
    have hwt : weightTypesOf x1 = weightTypesOf x2 := by unfold weightTypesOf; rw [hm]
    unfold candScore
    dsimp only
    rw [hdl, hlk, htag, hwt]
    linarith [ownerBoost_mono (ownerOf x1.repo_id) (ownerOf x2.repo_id) himp]

/-- The model record behind `c2ItemA`: one gguf file. -/
def c2ModelA : HFModel :=
  { modelId := "org/x", pipeline_tag := "", tags := [], infoResp := none, lastmodDays := none,
    repoFiles := some ["a.gguf"] }

/-- The model record behind `c2ItemB`: a safetensors file and a pytorch
weight file. -/
def c2ModelB : HFModel :=
  { modelId := "org/x", pipeline_tag := "", tags := [], infoResp := none, lastmodDays := none,
    repoFiles := some ["a.safetensors", "pytorch_model.bin"] }

/-- A candidate with one weight type (gguf). -/
def c2ItemA : Item :=
  { repo_id := "org/x", model := c2ModelA, downloads := 0, likes := 0, lastmodDays := none,
    tags := [] }

/-- A candidate with two weight types (safetensors, pytorch), otherwise
identical to `c2ItemA`. -/
def c2ItemB : Item :=
  { repo_id := "org/x", model := c2ModelB, downloads := 0, likes := 0, lastmodDays := none,
    tags := [] }

/-- C2, counterexample.  The composite score is not monotone in the NUMBER
of weight types: a candidate with the single weight type gguf (boost 0.35)
outscores an otherwise identical candidate with the two weight types
safetensors and pytorch (boost 0.20 + 0.10 = 0.30). -/
theorem c2_monotonicity_counterexample :
    (weightTypesOf c2ItemA).length = 1 ∧ (weightTypesOf c2ItemB).length = 2 ∧
      c2ItemA.downloads = c2ItemB.downloads ∧ c2ItemA.likes = c2ItemB.likes ∧
      c2ItemA.tags = c2ItemB.tags ∧ c2ItemA.repo_id = c2ItemB.repo_id ∧
      c2ItemA.model.pipeline_tag = c2ItemB.model.pipeline_tag ∧
      candScore 1 1 365 c2ItemB 365 < candScore 1 1 365 c2ItemA 365 := by
  have eA : candScore 1 1 365 c2ItemA 365 = 0.35 := by
    unfold candScore
    dsimp only
    rw [tagBoost_eval_zero _ (by decide) (by decide),
      (by decide : weightTypesOf c2ItemA = ["gguf"]), weightBoost_gguf,
      (by decide : ownerBoost (ownerOf c2ItemA.repo_id) = 0),
      (by decide : c2ItemA.downloads = 0), (by decide : c2ItemA.likes = 0)]
    norm_num
  have eB : candScore 1 1 365 c2ItemB 365 = 0.3 := by
    unfold candScore
    dsimp only
    rw [tagBoost_eval_zero _ (by decide) (by decide),
      (by decide : weightTypesOf c2ItemB = ["safetensors", "pytorch"]), weightBoost_st_pt,
      (by decide : ownerBoost (ownerOf c2ItemB.repo_id) = 0),
      (by decide : c2ItemB.downloads = 0), (by decide : c2ItemB.likes = 0)]
    norm_num
  refine ⟨by decide, by decide, by decide, by decide, by decide, by decide, by decide, ?_⟩
  rw [eA, eB]
  norm_num

/-- A low-downloads candidate for the C2 witness. -/
def c2WItemLo : Item :=
  { repo_id := "org/w", model := dummyModel, downloads := 1, likes := 0, lastmodDays := none,
    tags := [] }

/-- A high-downloads candidate for the C2 witness, otherwise identical. -/
def c2WItemHi : Item :=
  { repo_id := "org/w", model := dummyModel, downloads := 4, likes := 0, lastmodDays := none,
    tags := [] }

/-- Witness for `c2_monotonicity_amended`: the downloads conjunct at a
concrete pair of candidates. -/
theorem c2_monotonicity_amended_witness :
    candScore 1 1 365 c2WItemLo 365 ≤ candScore 1 1 365 c2WItemHi 365 :=
  (c2_monotonicity_amended 1 1 365 365).1 c2WItemLo c2WItemHi (by decide) (by decide)
    (by decide) (by decide) (by decide)

/-! ### C3: the max-b filter on the two named candidates -/

/-- The candidate `org/model-13b` with no declared weights. -/
def c3ModelA : HFModel :=
  { modelId := "org/model-13b", pipeline_tag := "", tags := [], infoResp := none,
    lastmodDays := none, repoFiles := none }

/-- The candidate `org/model-13b-GGUF` whose file listing has a gguf file. -/
def c3ModelB : HFModel :=
  { modelId := "org/model-13b-GGUF", pipeline_tag := "", tags := [], infoResp := none,
    lastmodDays := none, repoFiles := some ["model-13b.Q4_K_M.gguf"] }

/-- A candidate with gguf weights whose id carries no parseable B-size. -/
def c3ModelC : HFModel :=
  { modelId := "org/model-GGUF", pipeline_tag := "", tags := [], infoResp := none,
    lastmodDays := none, repoFiles := some ["m.gguf"] }

/-- C3, counterexample.  With max-b 7, the candidate `org/model-13b-GGUF`
is NOT included: its id parses as 13 (the `13b` inside the name matches the
size pattern, the following `-` being a word boundary), 13 > 7, and a
parsed size takes precedence over the presence of gguf weights, so the
whole batch is filtered out and the result is empty. -/
theorem c3_maxb_counterexample :
    parse_b_from_id "org/model-13b-GGUF" = some 13 ∧
      weightTypesOfFiles c3ModelB.repoFiles = ["gguf"] ∧
      rank_models [c3ModelA, c3ModelB] 10 .composite false false (some 7) = [] := by decide

/-- C3, amended.  With max-b 7, both `org/model-13b` (no weights) and
`org/model-13b-GGUF` (gguf weights, but id parses to 13 > 7) are excluded;
the weight-presence fallback applies only when no size is parsed anywhere,
as for `org/model-GGUF`, which is included. -/
theorem c3_maxb_amended :
    (rank_models [c3ModelA, c3ModelB, c3ModelC] 10 .composite false false
      (some 7)).map (fun e => e.repo_id) = ["org/model-GGUF"] ∧
      parse_b_from_id "org/model-13b" = some 13 ∧
      weightTypesOfFiles c3ModelA.repoFiles = [] ∧
      parse_b_from_id "org/model-GGUF" = none ∧ ¬((13 : ℚ) ≤ 7) := by decide

/-! ### C4: the requireWeights filter -/

/-- A weightless candidate for the C4 counterexample. -/
def c4CexModel : HFModel :=
  { modelId := "o/m", pipeline_tag := "", tags := [], infoResp := none, lastmodDays := none,
    repoFiles := none }

/-- C4, counterexample.  In the downloads sort mode `rank_models` returns
before the weight probing and the requireWeights filter are reached, so
with requireWeights enabled a candidate with an empty weight-type set is
still returned. -/
theorem c4_require_weights_counterexample :
    (rank_models [c4CexModel] 10 .downloads true false none).map (fun e => e.repo_id) =
      ["o/m"] ∧ weightTypesOfFiles c4CexModel.repoFiles = [] := by decide

/-- C4, amended.  In composite mode, requireWeights guarantees every
returned entry carries a meta item with a non-empty weight-type set; the
filter sits after scoring and before the topN truncation.  In the
downloads/likes fast paths the filter is not applied. -/
theorem c4_require_weights_amended (models : List HFModel) (top_n : Int) (gg : Bool)
    (mb : Option ℚ) :
    ∀ e ∈ rank_models models top_n .composite true gg mb,
      ∃ it : Item, e.meta = some it ∧ weightTypesOf it ≠ [] := by
  intro e he
  unfold rank_models at he
  by_cases hempty : (mkItems models).isEmpty
  · rw [if_pos hempty] at he
    cases he
  · rw [if_neg hempty] at he
    dsimp only at he
    rcases List.mem_map.mp he with ⟨s, hs, rfl⟩
    have hs2 := pyTake_subset top_n _ hs
    have hp := (List.mem_filter.mp hs2).2
    refine ⟨s.2, rfl, ?_⟩
    intro hnil
    rw [hnil] at hp
    simp at hp

/-- The model used for the C4 witness: a gguf-carrying candidate. -/
def c4WModel : HFModel :=
  { modelId := "o/g", pipeline_tag := "", tags := [], infoResp := none, lastmodDays := none,
    repoFiles := some ["x.gguf"] }

/-- The first entry returned for the C4 witness call. -/
def c4WEntry : RankEntry :=
  (rank_models [c4WModel] 10 .composite true false none).headD ⟨0, "", dummyModel, none⟩

/-- Witness for `c4_require_weights_amended` at a concrete call. -/
theorem c4_require_weights_amended_witness :
    ∃ it : Item, c4WEntry.meta = some it ∧ weightTypesOf it ≠ [] :=
  c4_require_weights_amended [c4WModel] 10 false none c4WEntry (by decide)

/-! ### C5: the downloads fast path sorts stably, descending -/

theorem pyTake_sublist {α : Type} (n : Int) (l : List α) : List.Sublist (pyTake n l) l := by
  unfold pyTake
  split
  · exact List.take_sublist _ l
  · exact List.take_sublist _ l

/-- C5, confirmed.  In the downloads sort mode the returned display metrics
(the downloads counts) are non-increasing, entries with equal downloads
keep their original relative input order (filtering the stably sorted list
at any downloads value gives exactly the input filtered at that value), and
the function is deterministic: identical inputs give identical output. -/
theorem c5_downloads_sort_stable (models : List HFModel) (top_n : Int) (rweights gg : Bool)
    (mb : Option ℚ) :
    List.Chain' (fun a b => b.displayMetric ≤ a.displayMetric)
        (rank_models models top_n .downloads rweights gg mb) ∧
      (∀ c : Int,
        (downloadsRanked (mkItems models)).filter (fun x => x.downloads == c) =
          (mkItems models).filter (fun x => x.downloads == c)) ∧
      rank_models models top_n .downloads rweights gg mb =
        rank_models models top_n .downloads rweights gg mb := by
  refine ⟨?_, ?_, rfl⟩
  · unfold rank_models
    by_cases hempty : (mkItems models).isEmpty
    · rw [if_pos hempty]
      exact List.chain'_nil
    · rw [if_neg hempty]
      dsimp only
      have hpw : (downloadsRanked (mkItems models)).Pairwise
          (fun x y => y.downloads ≤ x.downloads) := sortDesc_pairwise _ _
      have hpw2 : (pyTake top_n (downloadsRanked (mkItems models))).Pairwise
          (fun x y => y.downloads ≤ x.downloads) := hpw.sublist (pyTake_sublist _ _)
      exact (List.pairwise_map.mpr hpw2).chain'
  · intro c
    exact sortDesc_filter_eq (fun x => x.downloads) (mkItems models) c

/-! ### C10: the fast paths do not depend on the filter arguments -/

/-- C10, confirmed.  In the downloads and likes sort modes, `rank_models`
returns before weight probing, filtering, and composite scoring: its output
is the same for every setting of the requireWeights, gguf-only and max-b
arguments. -/
theorem c10_fast_path_noninterference (models : List HFModel) (top_n : Int)
    (rw1 rw2 gg1 gg2 : Bool) (mb1 mb2 : Option ℚ) :
    rank_models models top_n .downloads rw1 gg1 mb1 =
        rank_models models top_n .downloads rw2 gg2 mb2 ∧
      rank_models models top_n .likes rw1 gg1 mb1 =
        rank_models models top_n .likes rw2 gg2 mb2 :=
  ⟨rfl, rfl⟩

/-! ### C6: length bound and empty batch -/

theorem filter_snd_length (p : Item → Bool) (scored : List (ℚ × Item)) :
    (scored.filter (fun s => p s.2)).length = ((scored.map Prod.snd).filter p).length := by
  induction scored with
  | nil => rfl
  | cons s t ih =>
    simp only [List.filter_cons, List.map_cons]
    by_cases hp : p s.2
    · rw [if_pos hp, if_pos hp]
      simpa using ih
    · rw [if_neg hp, if_neg hp]
      exact ih

theorem compositeScored_map_snd (items : List Item) (gg : Bool) (mb : Option ℚ) :
    (compositeScored items gg mb).map Prod.snd =
      (match mb with
       | some b => maxBFilter b (if gg then ggufOnlyFilter items else items)
       | none => if gg then ggufOnlyFilter items else items) := by
  unfold compositeScored
  dsimp only
  apply zipWith_pair_map_snd
  rw [List.length_map]
  cases mb with
  | none =>
    by_cases hgg : gg
    · simp only [if_pos hgg]
      exact List.length_filter_le _ items
    · simp only [if_neg hgg]
      exact le_refl _
  | some b =>
    by_cases hgg : gg
    · simp only [if_pos hgg]
      exact le_trans (List.length_filter_le _ _) (List.length_filter_le _ items)
    · simp only [if_neg hgg]
      exact List.length_filter_le _ items

/-- A weightless candidate for the C6 counterexample. -/
def c6CexModelA : HFModel :=
  { modelId := "o/a", pipeline_tag := "", tags := [], infoResp := none, lastmodDays := none,
    repoFiles := none }

/-- A second candidate for the C6 counterexample. -/
def c6CexModelB : HFModel :=
  { modelId := "o/b", pipeline_tag := "", tags := [], infoResp := none, lastmodDays := none,
    repoFiles := none }

/-- C6, counterexample.  Two concrete failures of the claimed bound: with a
negative topN the Python slice `scored[:top_n]` still returns entries, so
the bound `min(topN, remaining)` fails; and in the downloads mode with
requireWeights on, the filter is ignored, so one weightless candidate is
returned even though zero candidates remain after the requested filters. -/
theorem c6_length_bound_counterexample :
    ((rank_models [c6CexModelA, c6CexModelB] (-1) .downloads false false none).length = 1 ∧
        ¬((1 : Int) ≤ min (-1) 2)) ∧
      ((rank_models [c6CexModelA] 10 .downloads true false none).length = 1 ∧
        (specAfterFilters [c6CexModelA] true false none).length = 0) := by decide

/-- C6, amended.  For non-negative topN, the number of returned entries is
at most min(topN, number of candidates remaining after the filters the code
applies in that mode: none in the downloads/likes fast paths, the gguf-only,
max-b and requireWeights filters in composite mode); and an empty candidate
batch always yields the empty result list rather than an error. -/
theorem c6_length_bound_amended (models : List HFModel) (top_n : Int) (mode : SortMode)
    (rweights gg : Bool) (mb : Option ℚ) (h : 0 ≤ top_n) :
    (rank_models models top_n mode rweights gg mb).length ≤
        min top_n.toNat (appliedFilteredItems models mode rweights gg mb).length ∧
      rank_models [] top_n mode rweights gg mb = [] := by
  constructor
  · unfold rank_models appliedFilteredItems
    by_cases hempty : (mkItems models).isEmpty
    · rw [if_pos hempty]
      simp
    · rw [if_neg hempty]
      cases mode with
      | downloads =>
        dsimp only
        rw [List.length_map]
        refine le_trans (pyTake_length_le _ _ h) ?_
        unfold downloadsRanked
        rw [(sortDesc_perm (fun x => x.downloads) (mkItems models)).length_eq]
      | likes =>
        dsimp only
        rw [List.length_map]
        refine le_trans (pyTake_length_le _ _ h) ?_
        unfold likesRanked
        rw [(sortDesc_perm (fun x => x.likes) (mkItems models)).length_eq]
      | composite =>
        dsimp only
        rw [List.length_map]
        refine le_trans (pyTake_length_le _ _ h) ?_
        apply min_le_min_left
        have hperm : List.Perm
            (sortDesc (fun s : ℚ × Item => s.1) (compositeScored (mkItems models) gg mb))
            (compositeScored (mkItems models) gg mb) := sortDesc_perm _ _
        by_cases hrw : rweights
        · rw [if_pos hrw, if_pos hrw]
          have h1 : (List.filter (fun s => !(weightTypesOf s.2).isEmpty)
              (sortDesc (fun s : ℚ × Item => s.1)
                (compositeScored (mkItems models) gg mb))).length =
              (List.filter (fun s => !(weightTypesOf s.2).isEmpty)
                (compositeScored (mkItems models) gg mb)).length :=
            (hperm.filter _).length_eq
          have h2 : (List.filter (fun s => !(weightTypesOf s.2).isEmpty)
              (compositeScored (mkItems models) gg mb)).length =
              (List.filter (fun it => !(weightTypesOf it).isEmpty)
                ((compositeScored (mkItems models) gg mb).map Prod.snd)).length :=
            filter_snd_length (fun it => !(weightTypesOf it).isEmpty)
              (compositeScored (mkItems models) gg mb)
          rw [h1, h2, compositeScored_map_snd]
        · rw [if_neg hrw, if_neg hrw]
          have h3 : (compositeScored (mkItems models) gg mb).length =
              ((compositeScored (mkItems models) gg mb).map Prod.snd).length :=
            (List.length_map _ _).symm
          rw [hperm.length_eq, h3, compositeScored_map_snd]
  · rfl

/-- A gguf-carrying candidate for the C6 witness. -/
def c6WModel : HFModel :=
  { modelId := "o/w", pipeline_tag := "", tags := [], infoResp := none, lastmodDays := none,
    repoFiles := some ["w.gguf"] }

/-- Witness for `c6_length_bound_amended` at a concrete call. -/
theorem c6_length_bound_amended_witness :
    (rank_models [c6WModel] 3 .composite true false none).length ≤
        min (3 : Int).toNat (appliedFilteredItems [c6WModel] .composite true false none).length ∧
      rank_models [] 3 .composite true false none = [] :=
  c6_length_bound_amended [c6WModel] 3 .composite true false none (by norm_num)

/-! ### C7: fetch failures are absorbed, the rest of the batch is ranked -/

/-- C7, confirmed.  A raising metric fetch yields 0 for both downloads and
likes instead of propagating, and in a five-candidate batch in which
the fetch raises for exactly one candidate, every other candidate (non-empty id)
still appears in the returned ranking with its own fetched metric. -/
theorem c7_fetch_failure_absorbed (models : List HFModel) (m : HFModel)
    (h5 : models.length = 5)
    (_h1 : (models.filter (fun mm => mm.infoResp == none)).length = 1) (hm : m ∈ models)
    (_hok : m.infoResp ≠ none) (hid : m.modelId ≠ "") :
    get_downloads_safe none = 0 ∧ get_likes_safe none = 0 ∧
      ∃ e ∈ rank_models models 10 .downloads false false none,
        e.repo_id = m.modelId ∧ e.displayMetric = get_downloads_safe m.infoResp := by
  refine ⟨rfl, rfl, ?_⟩
  have hitem : mkItem m ∈ mkItems models := by
    unfold mkItems
    exact List.mem_filterMap.mpr ⟨m, hm, by rw [if_neg hid]⟩
  have hsortmem : mkItem m ∈ downloadsRanked (mkItems models) :=
    ((sortDesc_perm _ _).mem_iff).mpr hitem
  have hlen : (downloadsRanked (mkItems models)).length ≤ 10 := by
    have ha : (downloadsRanked (mkItems models)).length = (mkItems models).length :=
      (sortDesc_perm _ _).length_eq
    have hb : (mkItems models).length ≤ models.length := List.length_filterMap_le _ _
    omega
  have htake : pyTake 10 (downloadsRanked (mkItems models)) =
      downloadsRanked (mkItems models) := by
    unfold pyTake
    rw [if_pos (by norm_num : (0 : Int) ≤ 10)]
    exact List.take_of_length_le (by omega)
  have hne : ¬(mkItems models).isEmpty := by
    intro hempty
    rw [List.isEmpty_iff] at hempty
    rw [hempty] at hitem
    cases hitem
  unfold rank_models
  rw [if_neg hne]
  dsimp only
  rw [htake]
  exact ⟨_, List.mem_map_of_mem _ hsortmem, rfl, rfl⟩

/-- Witness candidate 1 (fetch succeeds, 40 downloads, 4 likes). -/
def c7M1 : HFModel :=
  { modelId := "o/1", pipeline_tag := "", tags := [],
    infoResp := some ⟨some 40, none, some 4, none⟩, lastmodDays := none, repoFiles := none }

/-- Witness candidate 2. -/
def c7M2 : HFModel :=
  { modelId := "o/2", pipeline_tag := "", tags := [],
    infoResp := some ⟨some 30, none, some 3, none⟩, lastmodDays := none, repoFiles := none }

/-- Witness candidate 3: its metric fetch raises. -/
def c7M3 : HFModel :=
  { modelId := "o/3", pipeline_tag := "", tags := [], infoResp := none, lastmodDays := none,
    repoFiles := none }

/-- Witness candidate 4. -/
def c7M4 : HFModel :=
  { modelId := "o/4", pipeline_tag := "", tags := [],
    infoResp := some ⟨some 20, none, some 2, none⟩, lastmodDays := none, repoFiles := none }

/-- Witness candidate 5. -/
def c7M5 : HFModel :=
  { modelId := "o/5", pipeline_tag := "", tags := [],
    infoResp := some ⟨some 10, none, some 1, none⟩, lastmodDays := none, repoFiles := none }

/-- Witness for `c7_fetch_failure_absorbed`: five candidates, the third
raising, the first still ranked with its 40 downloads. -/
theorem c7_fetch_failure_absorbed_witness :
    get_downloads_safe none = 0 ∧ get_likes_safe none = 0 ∧
      ∃ e ∈ rank_models [c7M1, c7M2, c7M3, c7M4, c7M5] 10 .downloads false false none,
        e.repo_id = c7M1.modelId ∧ e.displayMetric = get_downloads_safe c7M1.infoResp :=
  c7_fetch_failure_absorbed [c7M1, c7M2, c7M3, c7M4, c7M5] c7M1 (by decide) (by decide)
    (by decide) (by decide) (by decide)

/-! ### C8: owner extraction and owner boost -/

theorem takeWhile_all_eq (l : List Char) (p : Char → Bool) (h : ∀ c ∈ l, p c = true) :
    l.takeWhile p = l := by
  induction l with
  | nil => rfl
  | cons a t ih =>
    rw [List.takeWhile_cons, if_pos (h a (List.mem_cons_self a t)),
      ih (fun c hc => h c (List.mem_cons_of_mem a hc))]

theorem takeWhile_append_stop (l1 l2 : List Char) (p : Char → Bool)
    (h1 : ∀ c ∈ l1, p c = true) (b : Char) (hb : p b = false) :
    (l1 ++ b :: l2).takeWhile p = l1 := by
  induction l1 with
  | nil => simp [List.takeWhile_cons, hb]
  | cons a t ih =>
    rw [List.cons_append, List.takeWhile_cons, if_pos (h1 a (List.mem_cons_self a t)),
      ih (fun c hc => h1 c (List.mem_cons_of_mem a hc))]

/-- C8, counterexample.  For an id with no separator, `repo.split("/")[0]`
is the whole id, not the empty string: the owner of `TheBloke` is
`TheBloke` itself (which is on the allow-list, so the boost is +0.25),
whereas the claimed empty owner would be off the list (boost 0). -/
theorem c8_owner_counterexample :
    ownerOf "TheBloke" = "TheBloke" ∧ ownerOf "TheBloke" ≠ "" ∧
      ownerBoost (ownerOf "TheBloke") = 0.25 ∧ ownerBoost "" = 0 := by
  have h1 : ownerOf "TheBloke" = "TheBloke" := by decide
  refine ⟨h1, by decide, ?_, ?_⟩
  · rw [h1]
    unfold ownerBoost
    rw [if_pos (by decide : trusted_orgs.contains "TheBloke" = true)]
  · unfold ownerBoost
    rw [if_neg (by decide : ¬trusted_orgs.contains "" = true)]

/-- C8, amended.  The owner is the portion of the id before the first `/`,
and is the WHOLE id when there is no separator; the owner boost of the
composite score is exactly +0.25 if and only if that owner is on the fixed
trusted-publisher allow-list, and 0 otherwise. -/
theorem c8_owner_amended (pre suf : String) (h : ∀ c ∈ pre.data, c ≠ '/') :
    ownerOf (pre ++ "/" ++ suf) = pre ∧ ownerOf pre = pre ∧
      (ownerBoost pre = 0.25 ↔ pre ∈ trusted_orgs) ∧
      (pre ∉ trusted_orgs → ownerBoost pre = 0) := by
  have hp : ∀ c ∈ pre.data, (c != '/') = true := by
    intro c hc
    simpa using h c hc
  refine ⟨?_, ?_, ?_, ?_⟩
  · unfold ownerOf
    rw [String.data_append, String.data_append, List.append_assoc]
    rw [show ("/" : String).data ++ suf.data = '/' :: suf.data from rfl]
    rw [takeWhile_append_stop pre.data _ _ hp '/' (by decide)]
  · unfold ownerOf
    rw [takeWhile_all_eq pre.data _ hp]
  · unfold ownerBoost
    by_cases hc : trusted_orgs.contains pre
    · rw [if_pos hc]
      exact ⟨fun _ => List.elem_iff.mp hc, fun _ => rfl⟩
    · rw [if_neg hc]
      constructor
      · intro h0
        exact absurd h0 (by norm_num)
      · intro hmem
        exact absurd (List.elem_iff.mpr hmem) hc
  · intro hmem
    unfold ownerBoost
    rw [if_neg (fun hc => hmem (List.elem_iff.mp hc))]

/-- Witness for `c8_owner_amended` at the owner `TheBloke`. -/
theorem c8_owner_amended_witness :
    ownerOf ("TheBloke" ++ "/" ++ "Llama") = "TheBloke" ∧ ownerOf "TheBloke" = "TheBloke" ∧
      (ownerBoost "TheBloke" = 0.25 ↔ "TheBloke" ∈ trusted_orgs) ∧
      ("TheBloke" ∉ trusted_orgs → ownerBoost "TheBloke" = 0) :=
  c8_owner_amended "TheBloke" "Llama" (by decide)

/-! ### C9: the displayed metric per sort mode -/

/-- The candidate for the C9 counterexample: 3 downloads, 7 likes. -/
def c9CexModel : HFModel :=
  { modelId := "o/m", pipeline_tag := "", tags := [],
    infoResp := some ⟨some 3, none, some 7, none⟩, lastmodDays := none, repoFiles := none }

/-- C9, counterexample.  In the likes sort mode the first component of each
returned tuple is the LIKES count of the candidate, not its downloads count: a
candidate with 3 downloads and 7 likes is displayed with 7. -/
theorem c9_display_metric_counterexample :
    (rank_models [c9CexModel] 10 .likes false false none).map (fun e => e.displayMetric) =
        [7] ∧
      get_downloads_safe c9CexModel.infoResp = 3 ∧ (7 : Int) ≠ 3 := by decide

/-- C9, amended.  The first component of each returned tuple is the
downloads count of the candidate in the downloads and composite sort modes, but
its likes count in the likes sort mode. -/
theorem c9_display_metric_amended (models : List HFModel) (top_n : Int) (rweights gg : Bool)
    (mb : Option ℚ) :
    (∀ e ∈ rank_models models top_n .downloads rweights gg mb,
      ∃ x ∈ mkItems models, e.repo_id = x.repo_id ∧ e.displayMetric = x.downloads) ∧
      (∀ e ∈ rank_models models top_n .likes rweights gg mb,
        ∃ x ∈ mkItems models, e.repo_id = x.repo_id ∧ e.displayMetric = x.likes) ∧
      (∀ e ∈ rank_models models top_n .composite rweights gg mb,
        ∃ x : Item, e.meta = some x ∧ e.displayMetric = x.downloads) := by
  refine ⟨?_, ?_, ?_⟩
  · intro e he
    unfold rank_models at he
    by_cases hempty : (mkItems models).isEmpty
    · rw [if_pos hempty] at he
      cases he
    · rw [if_neg hempty] at he
      dsimp only at he
      rcases List.mem_map.mp he with ⟨x, hx, rfl⟩
      have hx2 : x ∈ downloadsRanked (mkItems models) := pyTake_subset _ _ hx
      exact ⟨x, ((sortDesc_perm _ _).mem_iff).mp hx2, rfl, rfl⟩
  · intro e he
    unfold rank_models at he
    by_cases hempty : (mkItems models).isEmpty
    · rw [if_pos hempty] at he
      cases he
    · rw [if_neg hempty] at he
      dsimp only at he
      rcases List.mem_map.mp he with ⟨x, hx, rfl⟩
      have hx2 : x ∈ likesRanked (mkItems models) := pyTake_subset _ _ hx
      exact ⟨x, ((sortDesc_perm _ _).mem_iff).mp hx2, rfl, rfl⟩
  · intro e he
    unfold rank_models at he
    by_cases hempty : (mkItems models).isEmpty
    · rw [if_pos hempty] at he
      cases he
    · rw [if_neg hempty] at he
      dsimp only at he
      by_cases hrw : rweights
      · rw [if_pos hrw] at he
        rcases List.mem_map.mp he with ⟨s, _, rfl⟩
        exact ⟨s.2, rfl, rfl⟩
      · rw [if_neg hrw] at he
        rcases List.mem_map.mp he with ⟨s, _, rfl⟩
        exact ⟨s.2, rfl, rfl⟩

/-- The candidate for the C9 witness. -/
def c9WModel : HFModel :=
  { modelId := "o/w", pipeline_tag := "", tags := [],
    infoResp := some ⟨some 3, none, some 7, none⟩, lastmodDays := none, repoFiles := none }

/-- The entry returned in likes mode for the C9 witness call. -/
def c9WEntry : RankEntry :=
  (rank_models [c9WModel] 10 .likes false false none).headD ⟨0, "", dummyModel, none⟩

/-- Witness for `c9_display_metric_amended`: the likes-mode conjunct at a
concrete call. -/
theorem c9_display_metric_amended_witness :
    ∃ x ∈ mkItems [c9WModel], c9WEntry.repo_id = x.repo_id ∧ c9WEntry.displayMetric = x.likes :=
  (c9_display_metric_amended [c9WModel] 10 false false none).2.1 c9WEntry (by decide)
